import Mathlib

/-!
# The expression AST of the C front end

A shallow embedding of `src/ast/expression.h` (namespace `Miyuki::AST`): the
fifteen concrete node classes, their virtual functions `getKind`, `gen` and
`eval`, and the constructors.  A `shared_ptr` handle is either null or refers
to an object, so every handle field is an option-like value.

Declarations the header relies on but does not contain (`symbols.h`, the token
classes, the constructor bodies of `expression.cc`, the parser) are marked as
modelled from the specification.
-/

namespace Miyuki

/-- Modelled from the spec: the kinds of token the token source yields
(`lex/token.h` is not part of the sources): identifier, constant, string,
punctuator, keyword. -/
inductive TokenKind where
  | identifier
  | constant
  | stringLiteral
  | punctuator
  | keyword
deriving DecidableEq, Repr

/-- Modelled from the spec: the token class of `lex/token.h` (not part of the
sources); a token carries its kind, its literal text and its source position. -/
structure Token where
  kind : TokenKind
  text : String
  line : Nat
  column : Nat
deriving DecidableEq, Repr

/-- The token is the punctuator spelled `text`. -/
def Token.isPunctuator (t : Token) (text : String) : Bool :=
  t.kind == TokenKind.punctuator && t.text == text

/-- The token can stand alone as a primary expression: a literal or an identifier. -/
def Token.isFactor (t : Token) : Bool :=
  t.kind == TokenKind.identifier || t.kind == TokenKind.constant ||
    t.kind == TokenKind.stringLiteral

/-- The handle `TokenPtr` (`shared_ptr<Token>`): null or a token. -/
abbrev TokenPtr := Option Token

/-- The handle `WordTokenPtr`: null or an identifier token. -/
abbrev WordTokenPtr := Option Token

/-- Modelled from the spec: the class `TypeName`, only forward declared by the
header; an opaque type descriptor. -/
structure TypeName where
  descriptor : Nat
deriving DecidableEq, Repr

/-- Modelled from the spec: the class `InitializerList`, only forward declared
by the header; an opaque handle to the initializer list. -/
structure InitializerList where
  handle : Nat
deriving DecidableEq, Repr

abbrev TypeNamePtr := Option TypeName

abbrev InitializerListPtr := Option InitializerList

namespace AST

/-- Modelled from the spec: the enumeration `Kind` of `symbols.h` (not part of
the sources), one tag per concrete production.  The enumerators are the ones
`expression.h` names, spelled as the header spells them. -/
inductive Kind where
  | Expression
  | AssignmentExpression
  | ConditionalExpression
  | LogicalOrExpression
  | LogicalAndExpression
  | Arith
  | UNARY
  | CastExpression
  | LogicalNot
  | postfixExpression
  | StructAccess
  | ArrayAccess
  | FunctionCall
  | ArgumentExpressionList
  | AnonymousArray
  | PrimaryExpression
deriving DecidableEq, Repr

mutual
/-- An object of one of the fifteen concrete classes, with the value of every
data member; members of a base class come first (`Unary::op`, `Unary::expr`,
then `PostfixExpression::op`, `PostfixExpression::postfixExp`).  Every node
handle (`ExpressionPtr`, `UnaryPtr`, `AssignmentExpressionPtr`, ...) is an
`ExpressionPtr` here: the static class of the pointee is not tracked. -/
inductive Expression where
  | AssignmentExpression (assignOp : TokenPtr) (unaryExp : ExpressionPtr)
      (assignExp : ExpressionPtr) (condExp : ExpressionPtr)
  | ConditionalExpression (logicalOrExp : ExpressionPtr) (exp : ExpressionPtr)
      (condExpr : ExpressionPtr)
  | LogicalORExpression (logicalAndExp : ExpressionPtr) (logicalOrExp : ExpressionPtr)
  | LogicalANDExpression (exclusiveOrExpression : ExpressionPtr)
      (logicalAndExpression : ExpressionPtr)
  | Arithmetic (op : TokenPtr) (expr1 : ExpressionPtr) (expr2 : ExpressionPtr)
  | Unary (op : TokenPtr) (expr : ExpressionPtr)
  | CastExpression (op : TokenPtr) (expr : ExpressionPtr) (typeName : TypeNamePtr)
  | LogicalNot (op : TokenPtr) (expr : ExpressionPtr)
  | PostfixExpression (unaryOp : TokenPtr) (expr : ExpressionPtr) (op : TokenPtr)
      (postfixExp : ExpressionPtr)
  | StructAccess (unaryOp : TokenPtr) (expr : ExpressionPtr) (op : TokenPtr)
      (postfixExp : ExpressionPtr) (identifier : WordTokenPtr)
  | ArrayAccess (unaryOp : TokenPtr) (expr : ExpressionPtr) (op : TokenPtr)
      (postfixExp : ExpressionPtr) (exp : ExpressionPtr)
  | FunctionCall (unaryOp : TokenPtr) (expr : ExpressionPtr) (op : TokenPtr)
      (postfixExp : ExpressionPtr) (argExprLst : ExpressionPtr)
  | ArgumentExpressionList (argExprLst : ExpressionPtr) (assignExpr : ExpressionPtr)
  | AnonymousArray (typeName : TypeNamePtr) (initList : InitializerListPtr)
  | PrimaryExpression (factor : TokenPtr) (exp : ExpressionPtr)
deriving DecidableEq
/-- A node handle (`shared_ptr` to a node class): null or a reference to a node. -/
inductive ExpressionPtr where
  | null
  | ref (node : Expression)
deriving DecidableEq
end

/-- A handle is present when it is not null. -/
def ExpressionPtr.isPresent : ExpressionPtr → Bool
  | .null => false
  | .ref _ => true

/-! ## The virtual functions -/

/-- How a call that does not return normally ends: a failed `assert` aborts the
program and reports the asserted expression, here by the string literal in it. -/
inductive Failure where
  | assertionFailed (message : String)
deriving DecidableEq, Repr

/-- The `assert` of `<cassert>`, active as in the sources (nothing there defines
`NDEBUG`): returns when the condition holds, aborts otherwise. -/
def cAssert (cond : Bool) (message : String) : Except Failure Unit :=
  if cond then .ok () else .error (.assertionFailed message)

/-- The statement `assert( false && "unimplemented" )`; the string literal is a
non-null pointer, hence true as a condition. -/
def assertUnimplemented : Except Failure Unit :=
  cAssert (false && true) "unimplemented"

/-- `getKind`, dispatched on the class of the object: each class overrides it. -/
def getKind : Expression → Kind
  | .AssignmentExpression _ _ _ _ => Kind.AssignmentExpression
  | .ConditionalExpression _ _ _ => Kind.ConditionalExpression
  | .LogicalORExpression _ _ => Kind.LogicalOrExpression
  | .LogicalANDExpression _ _ => Kind.LogicalAndExpression
  | .Arithmetic _ _ _ => Kind.Arith
  | .Unary _ _ => Kind.UNARY
  | .CastExpression _ _ _ => Kind.CastExpression
  | .LogicalNot _ _ => Kind.LogicalNot
  | .PostfixExpression _ _ _ _ => Kind.postfixExpression
  | .StructAccess _ _ _ _ _ => Kind.StructAccess
  | .ArrayAccess _ _ _ _ _ => Kind.ArrayAccess
  | .FunctionCall _ _ _ _ _ => Kind.FunctionCall
  | .ArgumentExpressionList _ _ => Kind.ArgumentExpressionList
  | .AnonymousArray _ _ => Kind.AnonymousArray
  | .PrimaryExpression _ _ => Kind.PrimaryExpression

/-- `gen`, pure virtual in `Expression` and overridden by each class with the
same body. -/
def gen : Expression → Except Failure Unit
  | .AssignmentExpression _ _ _ _ => assertUnimplemented
  | .ConditionalExpression _ _ _ => assertUnimplemented
  | .LogicalORExpression _ _ => assertUnimplemented
  | .LogicalANDExpression _ _ => assertUnimplemented
  | .Arithmetic _ _ _ => assertUnimplemented
  | .Unary _ _ => assertUnimplemented
  | .CastExpression _ _ _ => assertUnimplemented
  | .LogicalNot _ _ => assertUnimplemented
  | .PostfixExpression _ _ _ _ => assertUnimplemented
  | .StructAccess _ _ _ _ _ => assertUnimplemented
  | .ArrayAccess _ _ _ _ _ => assertUnimplemented
  | .FunctionCall _ _ _ _ _ => assertUnimplemented
  | .ArgumentExpressionList _ _ => assertUnimplemented
  | .AnonymousArray _ _ => assertUnimplemented
  | .PrimaryExpression _ _ => assertUnimplemented

/-- The body of `Expression::eval`; the function returns `void`. -/
def Expression.evalBase : Except Failure Unit :=
  assertUnimplemented

/-- `eval`, dispatched on the class of the object: no class of the header
overrides `Expression::eval`, so each inherits it. -/
def eval : Expression → Except Failure Unit
  | .AssignmentExpression _ _ _ _ => Expression.evalBase
  | .ConditionalExpression _ _ _ => Expression.evalBase
  | .LogicalORExpression _ _ => Expression.evalBase
  | .LogicalANDExpression _ _ => Expression.evalBase
  | .Arithmetic _ _ _ => Expression.evalBase
  | .Unary _ _ => Expression.evalBase
  | .CastExpression _ _ _ => Expression.evalBase
  | .LogicalNot _ _ => Expression.evalBase
  | .PostfixExpression _ _ _ _ => Expression.evalBase
  | .StructAccess _ _ _ _ _ => Expression.evalBase
  | .ArrayAccess _ _ _ _ _ => Expression.evalBase
  | .FunctionCall _ _ _ _ _ => Expression.evalBase
  | .ArgumentExpressionList _ _ => Expression.evalBase
  | .AnonymousArray _ _ => Expression.evalBase
  | .PrimaryExpression _ _ => Expression.evalBase

/-- A call succeeds when it returns normally. -/
def Succeeds {ε α : Type} (r : Except ε α) : Prop :=
  ∃ a, r = .ok a

/-! ## Constructors -/

/-- The `Unary` subobject of a node whose class is `Unary` or derives from it. -/
structure UnaryPart where
  op : TokenPtr
  expr : ExpressionPtr

/-- Modelled from the spec: the constructor `Unary(op, expr)`, declared by the
header and defined in `expression.cc` (not part of the sources): the node keeps
its unary operator token and its operand expression. -/
def Unary.init (op : TokenPtr) (expr : ExpressionPtr) : UnaryPart :=
  { op := op, expr := expr }

/-- A complete object of class `Unary`. -/
def Unary.new (op : TokenPtr) (expr : ExpressionPtr) : Expression :=
  let base := Unary.init op expr
  .Unary base.op base.expr

/-- The constructor `LogicalNot(op, expr) : Unary(op, expr) {}`. -/
def LogicalNot.new (op : TokenPtr) (expr : ExpressionPtr) : Expression :=
  let base := Unary.init op expr
  .LogicalNot base.op base.expr

/-- The constructor
`PostfixExpression(op, expr, op1, postfixExp) : Unary(op, expr), op(op1), postfixExp(postfixExp) {}`. -/
def PostfixExpression.new (op : TokenPtr) (expr : ExpressionPtr) (op1 : TokenPtr)
    (postfixExp : ExpressionPtr) : Expression :=
  let base := Unary.init op expr
  .PostfixExpression base.op base.expr op1 postfixExp

/-- The member `Unary::op`, for a node whose class is `Unary` or derives from it. -/
def Expression.unaryOp? : Expression → Option TokenPtr
  | .Unary op _ => some op
  | .CastExpression op _ _ => some op
  | .LogicalNot op _ => some op
  | .PostfixExpression unaryOp _ _ _ => some unaryOp
  | .StructAccess unaryOp _ _ _ _ => some unaryOp
  | .ArrayAccess unaryOp _ _ _ _ => some unaryOp
  | .FunctionCall unaryOp _ _ _ _ => some unaryOp
  | _ => none

/-- The member `Unary::expr`, for a node whose class is `Unary` or derives from it. -/
def Expression.unaryExpr? : Expression → Option ExpressionPtr
  | .Unary _ expr => some expr
  | .CastExpression _ expr _ => some expr
  | .LogicalNot _ expr => some expr
  | .PostfixExpression _ expr _ _ => some expr
  | .StructAccess _ expr _ _ _ => some expr
  | .ArrayAccess _ expr _ _ _ => some expr
  | .FunctionCall _ expr _ _ _ => some expr
  | _ => none

/-- The member `PostfixExpression::op`, which hides `Unary::op`, for a node whose
class is `PostfixExpression` or derives from it. -/
def Expression.postfixOp? : Expression → Option TokenPtr
  | .PostfixExpression _ _ op _ => some op
  | .StructAccess _ _ op _ _ => some op
  | .ArrayAccess _ _ op _ _ => some op
  | .FunctionCall _ _ op _ _ => some op
  | _ => none

/-- The member `PostfixExpression::postfixExp`. -/
def Expression.postfixExp? : Expression → Option ExpressionPtr
  | .PostfixExpression _ _ _ postfixExp => some postfixExp
  | .StructAccess _ _ _ postfixExp _ => some postfixExp
  | .ArrayAccess _ _ _ postfixExp _ => some postfixExp
  | .FunctionCall _ _ _ postfixExp _ => some postfixExp
  | _ => none

/-- Modelled from the spec: the constructor `PrimaryExpression(const TokenPtr &factor)`,
declared by the header and defined in `expression.cc` (not part of the sources):
the node holds the token and no sub-expression. -/
def PrimaryExpression.newFactor (factor : TokenPtr) : Expression :=
  .PrimaryExpression factor .null

/-- Modelled from the spec: the constructor `PrimaryExpression(const ExpressionPtr &exp)`,
declared by the header and defined in `expression.cc` (not part of the sources):
the node holds the parenthesized sub-expression and no token. -/
def PrimaryExpression.newExp (exp : ExpressionPtr) : Expression :=
  .PrimaryExpression none exp

/-- Modelled from the spec: the constructor
`AssignmentExpression(assignOp, unaryExp, assignExp)`, declared by the header and
defined in `expression.cc` (not part of the sources): the node holds the
assignment operator token, the target and the right-hand side, and no bare
conditional-expression. -/
def AssignmentExpression.new (assignOp : TokenPtr) (unaryExp : ExpressionPtr)
    (assignExp : ExpressionPtr) : Expression :=
  .AssignmentExpression assignOp unaryExp assignExp .null

/-- Modelled from the spec: the constructor `Arithmetic(op, expr1, expr2)`,
declared by the header and defined in `expression.cc` (not part of the sources):
the node holds the binary operator token, the left and the right expression. -/
def Arithmetic.new (op : TokenPtr) (expr1 : ExpressionPtr) (expr2 : ExpressionPtr) :
    Expression :=
  .Arithmetic op expr1 expr2

/-- Modelled from the spec: the constructor
`ArgumentExpressionList(argExprLst, assignExpr)`, declared by the header and
defined in `expression.cc` (not part of the sources): the node holds the
previous list and one assignment-expression. -/
def ArgumentExpressionList.new (argExprLst : ExpressionPtr) (assignExpr : ExpressionPtr) :
    Expression :=
  .ArgumentExpressionList argExprLst assignExpr

/-- The first four arguments of the constructors of the postfix classes. -/
structure PostfixArgs where
  op : TokenPtr
  expr : ExpressionPtr
  op1 : TokenPtr
  postfixExp : ExpressionPtr

/-- Modelled from the spec: the constructor
`FunctionCall(op, expr, op1, postfixExp, argExprLst)`, declared by the header and
defined in `expression.cc` (not part of the sources): a `PostfixExpression`
built from the first four arguments, holding the argument list. -/
def FunctionCall.new (args : PostfixArgs) (argExprLst : ExpressionPtr) : Expression :=
  let base := Unary.init args.op args.expr
  .FunctionCall base.op base.expr args.op1 args.postfixExp argExprLst

/-- Modelled from the spec: the constructor
`ArrayAccess(op, expr, op1, postfixExp, exp)`, declared by the header and defined
in `expression.cc` (not part of the sources): a `PostfixExpression` built from the
first four arguments, holding the index expression. -/
def ArrayAccess.new (args : PostfixArgs) (exp : ExpressionPtr) : Expression :=
  let base := Unary.init args.op args.expr
  .ArrayAccess base.op base.expr args.op1 args.postfixExp exp

/-- Modelled from the spec: the constructor
`StructAccess(op, expr, op1, postfixExp, identifier)`, declared by the header and
defined in `expression.cc` (not part of the sources): a `PostfixExpression` built
from the first four arguments, holding the member identifier. -/
def StructAccess.new (args : PostfixArgs) (identifier : WordTokenPtr) : Expression :=
  let base := Unary.init args.op args.expr
  .StructAccess base.op base.expr args.op1 args.postfixExp identifier

/-! ## Shapes of trees -/

mutual
/-- An `Arithmetic` tree all of whose leaves are `PrimaryExpression` nodes holding
a constant token: operator present, both operands present and of this shape. -/
def Expression.isLiteralArithmetic : Expression → Bool
  | .Arithmetic (some _) expr1 expr2 =>
    expr1.isLiteralArithmetic && expr2.isLiteralArithmetic
  | .PrimaryExpression (some factor) .null => factor.kind == TokenKind.constant
  | _ => false
/-- The handle is present and its node is a literal `Arithmetic` tree. -/
def ExpressionPtr.isLiteralArithmetic : ExpressionPtr → Bool
  | .null => false
  | .ref node => node.isLiteralArithmetic
end

mutual
/-- The number of assignment-expressions an argument list holds: the node's own
one, when present, and those of the previous list. -/
def Expression.argumentCount : Expression → Nat
  | .ArgumentExpressionList argExprLst assignExpr =>
    argExprLst.argumentCount + (if assignExpr.isPresent then 1 else 0)
  | _ => 0
/-- The number of assignment-expressions behind a list handle; none when null. -/
def ExpressionPtr.argumentCount : ExpressionPtr → Nat
  | .null => 0
  | .ref node => node.argumentCount
end

/-- The member `FunctionCall::argExprLst`. -/
def Expression.argExprLst? : Expression → Option ExpressionPtr
  | .FunctionCall _ _ _ _ argExprLst => some argExprLst
  | _ => none

/-- The token is one of the assignment operators of ISO/IEC 9899 §A.2.1. -/
def isAssignmentOperator (t : Token) : Bool :=
  t.kind == TokenKind.punctuator &&
    ["=", "*=", "/=", "%=", "+=", "-=", "<<=", ">>=", "&=", "^=", "|="].contains t.text

/-- The side-effecting nodes the specification lists: an `AssignmentExpression`
with an assignment operator, a `Unary` whose operator is `++` or `--`, and a
`FunctionCall`. -/
def Expression.isSideEffecting : Expression → Bool
  | .AssignmentExpression (some assignOp) _ _ _ => isAssignmentOperator assignOp
  | .Unary (some op) _ => op.isPunctuator "++" || op.isPunctuator "--"
  | .FunctionCall _ _ _ _ _ => true
  | _ => false

/-- A `PrimaryExpression` holding the constant token spelled `text`. -/
def literal (text : String) (column : Nat) : Expression :=
  PrimaryExpression.newFactor
    (some { kind := .constant, text := text, line := 1, column := column })

/-- The tree of `2 + 3 * 4`:
`Arithmetic(+, Primary(2), Arithmetic(*, Primary(3), Primary(4)))`. -/
def twoPlusThreeTimesFour : Expression :=
  Arithmetic.new (some { kind := .punctuator, text := "+", line := 1, column := 3 })
    (.ref (literal "2" 1))
    (.ref (Arithmetic.new (some { kind := .punctuator, text := "*", line := 1, column := 7 })
      (.ref (literal "3" 5)) (.ref (literal "4" 9))))

/-- The tree of `++a`: `Unary(++, Primary(a))`. -/
def preIncrementA : Expression :=
  Unary.new (some { kind := .punctuator, text := "++", line := 1, column := 1 })
    (.ref (PrimaryExpression.newFactor
      (some { kind := .identifier, text := "a", line := 1, column := 3 })))

/-- Both operands of an `Arithmetic` node are present. -/
def Expression.operandsPresent : Expression → Bool
  | .Arithmetic _ expr1 expr2 => expr1.isPresent && expr2.isPresent
  | _ => false

end AST

/-! ## The expression parser

`src/jacc.cxx` calls `Parser::parse`, whose sources (`parse/parser.h`) are not
part of the repository files at hand.  The productions the properties below
concern are modelled from the specification.  A production reads a prefix of the
token sequence and returns the node built together with the tokens left; the
productions it delegates to are parameters. -/

namespace Parse

open AST

/-- Modelled from the spec: why a production of the absent parser returns no
node, a syntax error "carrying the expected construct and the offending token's
source position" (no token at the end of the input); `outOfFuel` is the bound
on the iterations of a loop running out. -/
inductive ParseError where
  | syntaxError (expected : String) (found : Option Token)
  | outOfFuel
deriving DecidableEq, Repr

/-- Modelled from the spec: a grammar production of the absent parser, reading
from the token sequence and returning a completed subtree or an error. -/
abbrev Production := List Token → Except ParseError (Expression × List Token)

/-- Modelled from the spec: consume the punctuator `text`, or report a syntax
error at the current token. -/
def expect (text : String) : List Token → Except ParseError (List Token)
  | [] => .error (.syntaxError text none)
  | t :: rest =>
    if t.isPunctuator text then .ok rest else .error (.syntaxError text (some t))

/-- Modelled from the spec: the production primary-expression of the absent
parser, "literal/identifier token, or `(` expression `)`". -/
def primaryExpression (expression : Production) : Production
  | [] => .error (.syntaxError "primary-expression" none)
  | t :: rest =>
    if t.isFactor then
      .ok (PrimaryExpression.newFactor (some t), rest)
    else if t.isPunctuator "(" then do
      let (e, rest1) ← expression rest
      let rest2 ← expect ")" rest1
      pure (PrimaryExpression.newExp (.ref e), rest2)
    else
      .error (.syntaxError "primary-expression" (some t))

/-- Modelled from the spec: the links of an argument list after the first; while
a comma follows, one more assignment-expression is read and a node holding the
list so far is built. -/
def argumentListLoop (assignmentExpression : Production) :
    Nat → Expression → List Token → Except ParseError (Expression × List Token)
  | _, list, [] => .ok (list, [])
  | 0, list, t :: rest =>
    if t.isPunctuator "," then .error .outOfFuel else .ok (list, t :: rest)
  | fuel + 1, list, t :: rest =>
    if t.isPunctuator "," then do
      let (a, rest1) ← assignmentExpression rest
      argumentListLoop assignmentExpression fuel
        (ArgumentExpressionList.new (.ref list) (.ref a)) rest1
    else
      .ok (list, t :: rest)

/-- Modelled from the spec: the production argument-expression-list of the absent
parser, a left-associative chain "each link holding a reference to the previous
list node", absent in the first link. -/
def argumentExpressionList (assignmentExpression : Production) : Production :=
  fun tokens => do
    let (a, rest) ← assignmentExpression tokens
    argumentListLoop assignmentExpression rest.length
      (ArgumentExpressionList.new .null (.ref a)) rest

/-- Modelled from the spec: the postfixes of a chain, `[expr]`, `.id`, `->id`,
`(args)`; each node built has the chain so far as its base.  `inherited base t` gives the four constructor
arguments the postfix classes share, for a base node and the token that opens
the postfix.  A call whose `(` is followed at once by `)` gets a null argument
list. -/
def postfixLoop (expression assignmentExpression : Production)
    (inherited : Expression → Token → PostfixArgs) :
    Nat → Expression → List Token → Except ParseError (Expression × List Token)
  | _, base, [] => .ok (base, [])
  | 0, base, t :: rest =>
    if t.isPunctuator "[" || t.isPunctuator "." || t.isPunctuator "->"
        || t.isPunctuator "(" then
      .error .outOfFuel
    else
      .ok (base, t :: rest)
  | fuel + 1, base, t :: rest =>
    if t.isPunctuator "[" then do
      let (index, rest1) ← expression rest
      let rest2 ← expect "]" rest1
      postfixLoop expression assignmentExpression inherited fuel
        (ArrayAccess.new (inherited base t) (.ref index)) rest2
    else if t.isPunctuator "." || t.isPunctuator "->" then
      match rest with
      | [] => .error (.syntaxError "identifier" none)
      | name :: rest1 =>
        if name.kind == TokenKind.identifier then
          postfixLoop expression assignmentExpression inherited fuel
            (StructAccess.new (inherited base t) (some name)) rest1
        else
          .error (.syntaxError "identifier" (some name))
    else if t.isPunctuator "(" then
      match rest with
      | [] => .error (.syntaxError ")" none)
      | next :: rest1 =>
        if next.isPunctuator ")" then
          postfixLoop expression assignmentExpression inherited fuel
            (FunctionCall.new (inherited base t) .null) rest1
        else do
          let (list, rest2) ← argumentExpressionList assignmentExpression (next :: rest1)
          let rest3 ← expect ")" rest2
          postfixLoop expression assignmentExpression inherited fuel
            (FunctionCall.new (inherited base t) (.ref list)) rest3
    else
      .ok (base, t :: rest)

/-- Modelled from the spec: the production postfix-expression of the absent
parser, a primary expression followed by a chain of postfixes "built iteratively
so the final tree nests earlier postfixes as the base of later ones". -/
def postfixExpression (expression assignmentExpression : Production)
    (inherited : Expression → Token → PostfixArgs) : Production :=
  fun tokens => do
    let (primary, rest) ← primaryExpression expression tokens
    postfixLoop expression assignmentExpression inherited rest.length primary rest

/-- Modelled from the spec: the static operator-to-precedence table of the absent
parser for the generic binary levels, from the loosest to the tightest:
bitwise-OR, bitwise-XOR, bitwise-AND, equality, relational, shift, additive,
multiplicative. -/
def binaryPrecedence (t : Token) : Option Nat :=
  if t.kind == TokenKind.punctuator then
    if t.text == "|" then some 1
    else if t.text == "^" then some 2
    else if t.text == "&" then some 3
    else if t.text == "==" || t.text == "!=" then some 4
    else if t.text == "<" || t.text == ">" || t.text == "<=" || t.text == ">=" then some 5
    else if t.text == "<<" || t.text == ">>" then some 6
    else if t.text == "+" || t.text == "-" then some 7
    else if t.text == "*" || t.text == "/" || t.text == "%" then some 8
    else none
  else none

/-- Modelled from the spec: the loop of precedence climbing, "while the next
token's operator precedence is ≥ threshold, consume it, parse the right-hand
side at the next-higher threshold, and fold into an Arithmetic node", the node
built becoming the left operand of the next iteration.  The right-hand side is read with the threshold
one above the precedence of the operator consumed. -/
def climb (castExpression : Production) :
    Nat → Nat → Expression → List Token → Except ParseError (Expression × List Token)
  | _, _, left, [] => .ok (left, [])
  | 0, threshold, left, t :: rest =>
    match binaryPrecedence t with
    | some p => if threshold ≤ p then .error .outOfFuel else .ok (left, t :: rest)
    | none => .ok (left, t :: rest)
  | fuel + 1, threshold, left, t :: rest =>
    match binaryPrecedence t with
    | some p =>
      if threshold ≤ p then do
        let (operand, rest1) ← castExpression rest
        let (right, rest2) ← climb castExpression fuel (p + 1) operand rest1
        climb castExpression fuel threshold
          (Arithmetic.new (some t) (.ref left) (.ref right)) rest2
      else
        .ok (left, t :: rest)
    | none => .ok (left, t :: rest)

/-- Modelled from the spec: the production of the generic binary-arithmetic
levels of the absent parser, "collapsed into one parametrized production using
precedence climbing", called with a minimum-precedence threshold; its operands
are cast-expressions. -/
def arithmetic (castExpression : Production) (threshold : Nat) : Production :=
  fun tokens => do
    let (left, rest) ← castExpression tokens
    climb castExpression rest.length threshold left rest

/-- A production that reads one literal or identifier token as its expression:
the token alternative of primary-expression, without the parenthesized one. -/
def factorOnly : Production :=
  primaryExpression (fun tokens => .error (.syntaxError "expression" tokens.head?))

/-- An identifier token. -/
def identifier (name : String) (column : Nat) : Token :=
  { kind := .identifier, text := name, line := 1, column := column }

/-- A constant token. -/
def constant (text : String) (column : Nat) : Token :=
  { kind := .constant, text := text, line := 1, column := column }

/-- A punctuator token. -/
def punct (text : String) (column : Nat) : Token :=
  { kind := .punctuator, text := text, line := 1, column := column }

end Parse

/-! ## Properties of the node model -/

namespace AST

theorem assertUnimplemented_eq :
    assertUnimplemented = .error (.assertionFailed "unimplemented") := rfl

theorem gen_eq (n : Expression) : gen n = .error (.assertionFailed "unimplemented") := by
  cases n <;> rfl

theorem eval_eq (n : Expression) : eval n = .error (.assertionFailed "unimplemented") := by
  cases n <;> rfl

theorem not_succeeds_error {ε α : Type} (e : ε) : ¬ Succeeds (Except.error e : Except ε α) := by
  rintro ⟨a, h⟩
  cases h

/-- C1: for a node of each of the fifteen concrete classes, whatever its members
hold, `getKind` returns the tag of that class; a node of a derived class returns
its own tag, which is not the tag of its `Unary` or `PostfixExpression` base. -/
theorem getKind_returns_own_tag :
    (∀ assignOp unaryExp assignExp condExp,
      getKind (.AssignmentExpression assignOp unaryExp assignExp condExp)
        = Kind.AssignmentExpression) ∧
    (∀ logicalOrExp exp condExpr,
      getKind (.ConditionalExpression logicalOrExp exp condExpr)
        = Kind.ConditionalExpression) ∧
    (∀ logicalAndExp logicalOrExp,
      getKind (.LogicalORExpression logicalAndExp logicalOrExp) = Kind.LogicalOrExpression) ∧
    (∀ exclusiveOrExpression logicalAndExpression,
      getKind (.LogicalANDExpression exclusiveOrExpression logicalAndExpression)
        = Kind.LogicalAndExpression) ∧
    (∀ op expr1 expr2, getKind (.Arithmetic op expr1 expr2) = Kind.Arith) ∧
    (∀ op expr, getKind (.Unary op expr) = Kind.UNARY) ∧
    (∀ op expr typeName,
      getKind (.CastExpression op expr typeName) = Kind.CastExpression ∧
      getKind (.CastExpression op expr typeName) ≠ Kind.UNARY) ∧
    (∀ op expr,
      getKind (.LogicalNot op expr) = Kind.LogicalNot ∧
      getKind (.LogicalNot op expr) ≠ Kind.UNARY) ∧
    (∀ unaryOp expr op postfixExp,
      getKind (.PostfixExpression unaryOp expr op postfixExp) = Kind.postfixExpression ∧
      getKind (.PostfixExpression unaryOp expr op postfixExp) ≠ Kind.UNARY) ∧
    (∀ unaryOp expr op postfixExp identifier,
      getKind (.StructAccess unaryOp expr op postfixExp identifier) = Kind.StructAccess ∧
      getKind (.StructAccess unaryOp expr op postfixExp identifier) ≠ Kind.postfixExpression ∧
      getKind (.StructAccess unaryOp expr op postfixExp identifier) ≠ Kind.UNARY) ∧
    (∀ unaryOp expr op postfixExp exp,
      getKind (.ArrayAccess unaryOp expr op postfixExp exp) = Kind.ArrayAccess ∧
      getKind (.ArrayAccess unaryOp expr op postfixExp exp) ≠ Kind.postfixExpression ∧
      getKind (.ArrayAccess unaryOp expr op postfixExp exp) ≠ Kind.UNARY) ∧
    (∀ unaryOp expr op postfixExp argExprLst,
      getKind (.FunctionCall unaryOp expr op postfixExp argExprLst) = Kind.FunctionCall ∧
      getKind (.FunctionCall unaryOp expr op postfixExp argExprLst) ≠ Kind.postfixExpression ∧
      getKind (.FunctionCall unaryOp expr op postfixExp argExprLst) ≠ Kind.UNARY) ∧
    (∀ argExprLst assignExpr,
      getKind (.ArgumentExpressionList argExprLst assignExpr) = Kind.ArgumentExpressionList) ∧
    (∀ typeName initList, getKind (.AnonymousArray typeName initList) = Kind.AnonymousArray) ∧
    (∀ factor exp, getKind (.PrimaryExpression factor exp) = Kind.PrimaryExpression) := by
  refine ⟨?_, ?_, ?_, ?_, ?_, ?_, ?_, ?_, ?_, ?_, ?_, ?_, ?_, ?_, ?_⟩ <;> intros <;>
    simp [getKind]

/-- C2: on every node of every concrete class, whatever its members and children
hold, `gen` does not return normally: it ends in the failed assertion that
reports "unimplemented". -/
theorem gen_never_returns_normally (n : Expression) :
    gen n = .error (.assertionFailed "unimplemented") ∧ ¬ Succeeds (gen n) := by
  have h := gen_eq n
  exact ⟨h, by rw [h]; exact not_succeeds_error _⟩

/-- C3, as the code has it: on an `Arithmetic` tree all of whose leaves are
`PrimaryExpression` nodes holding a constant token, such as the tree of
`2 + 3 * 4`, `eval` does not succeed and yields no constant: it ends in the
failed assertion that reports "unimplemented". -/
theorem eval_literal_arithmetic_unimplemented (n : Expression)
    (h : n.isLiteralArithmetic = true) :
    eval n = .error (.assertionFailed "unimplemented") ∧ ¬ Succeeds (eval n) := by
  have _ := h
  have h' := eval_eq n
  exact ⟨h', by rw [h']; exact not_succeeds_error _⟩

theorem eval_literal_arithmetic_unimplemented_witness :
    twoPlusThreeTimesFour.isLiteralArithmetic = true ∧
    eval twoPlusThreeTimesFour = .error (.assertionFailed "unimplemented") ∧
    ¬ Succeeds (eval twoPlusThreeTimesFour) :=
  ⟨by decide, eval_literal_arithmetic_unimplemented twoPlusThreeTimesFour (by decide)⟩

/-- C3 as stated fails: the tree of `2 + 3 * 4` is an `Arithmetic` tree with
literal leaves only, and `eval` does not succeed on it. -/
theorem eval_two_plus_three_times_four_fails :
    twoPlusThreeTimesFour.isLiteralArithmetic = true ∧
    ¬ Succeeds (eval twoPlusThreeTimesFour) :=
  ⟨by decide, by rw [eval_eq]; exact not_succeeds_error _⟩

/-- C4: `eval` does not succeed on a side-effecting node, that is on an
`AssignmentExpression` with an assignment operator, on a `Unary` whose operator
is `++` or `--`, and on a `FunctionCall`, whatever the operands are. -/
theorem eval_fails_on_side_effecting (n : Expression) (h : n.isSideEffecting = true) :
    ¬ Succeeds (eval n) := by
  have _ := h
  rw [eval_eq]
  exact not_succeeds_error _

theorem eval_fails_on_side_effecting_witness :
    preIncrementA.isSideEffecting = true ∧ ¬ Succeeds (eval preIncrementA) :=
  ⟨by decide, eval_fails_on_side_effecting preIncrementA (by decide)⟩

/-- C5: a logical-negation node carries the tag `Kind::LogicalNot`, which differs
from the tag of every `Unary` node and of every `CastExpression` node, whatever
the operator tokens and operands are; the tag alone identifies the class, the
operator token plays no part. -/
theorem logicalNot_kind_distinct (op : TokenPtr) (expr : ExpressionPtr) :
    getKind (LogicalNot.new op expr) = Kind.LogicalNot ∧
    getKind (LogicalNot.new op expr) ≠ getKind (Unary.new op expr) ∧
    (∀ op2 expr2, getKind (LogicalNot.new op expr) ≠ getKind (.Unary op2 expr2)) ∧
    (∀ op2 expr2 typeName,
      getKind (LogicalNot.new op expr) ≠ getKind (.CastExpression op2 expr2 typeName)) ∧
    (∀ n, getKind n = Kind.LogicalNot ↔ ∃ op2 expr2, n = .LogicalNot op2 expr2) := by
  refine ⟨rfl, ?_, ?_, ?_, ?_⟩
  · simp [LogicalNot.new, Unary.new, getKind]
  · intros; simp [LogicalNot.new, getKind]
  · intros; simp [LogicalNot.new, getKind]
  · intro n
    cases n <;> simp [getKind]

/-- C10: `PostfixExpression(op, expr, op1, postfixExp)` hands `op` and `expr` to
the `Unary` base and sets its own members `op` to `op1` and `postfixExp` to the
base chain given: the member `PostfixExpression::op` is `op1`, the member
`Unary::op` is `op`, and the two can differ. -/
theorem postfixExpression_two_operator_tokens :
    (∀ (op : TokenPtr) (expr : ExpressionPtr) (op1 : TokenPtr) (postfixExp : ExpressionPtr),
      PostfixExpression.new op expr op1 postfixExp
        = .PostfixExpression (Unary.init op expr).op (Unary.init op expr).expr op1 postfixExp ∧
      (PostfixExpression.new op expr op1 postfixExp).postfixOp? = some op1 ∧
      (PostfixExpression.new op expr op1 postfixExp).postfixExp? = some postfixExp ∧
      (PostfixExpression.new op expr op1 postfixExp).unaryOp? = some op ∧
      (PostfixExpression.new op expr op1 postfixExp).unaryExpr? = some expr) ∧
    (∃ (op : TokenPtr) (expr : ExpressionPtr) (op1 : TokenPtr) (postfixExp : ExpressionPtr),
      (PostfixExpression.new op expr op1 postfixExp).unaryOp?
        ≠ (PostfixExpression.new op expr op1 postfixExp).postfixOp?) := by
  refine ⟨fun op expr op1 postfixExp => ⟨rfl, rfl, rfl, rfl, rfl⟩, ?_⟩
  refine ⟨none, .null, some (Parse.punct "++" 2), .null, ?_⟩
  simp [PostfixExpression.new, Unary.init, Expression.unaryOp?, Expression.postfixOp?]

end AST

/-! ## Properties of the modelled parser -/

namespace Parse

open AST

theorem climb_nil (castExpression : Production) (fuel threshold : Nat) (left : Expression) :
    climb castExpression fuel threshold left [] = .ok (left, []) := by
  cases fuel <;> rfl

/-- The modelled production is left-associative on one level: `a - b - c` parses
as `Arithmetic(-, Arithmetic(-, a, b), c)`. -/
theorem arithmetic_same_level_nests_left :
    arithmetic factorOnly 1
      [identifier "a" 1, punct "-" 3, identifier "b" 5, punct "-" 7, identifier "c" 9]
      = .ok (Arithmetic.new (some (punct "-" 7))
          (.ref (Arithmetic.new (some (punct "-" 3))
            (.ref (PrimaryExpression.newFactor (some (identifier "a" 1))))
            (.ref (PrimaryExpression.newFactor (some (identifier "b" 5))))))
          (.ref (PrimaryExpression.newFactor (some (identifier "c" 9)))), []) := by
  rfl

/-- A looser second operator closes the first node: `a * b + c` parses as
`Arithmetic(+, Arithmetic(*, a, b), c)`. -/
theorem arithmetic_looser_operator_nests_left :
    arithmetic factorOnly 1
      [identifier "a" 1, punct "*" 3, identifier "b" 5, punct "+" 7, identifier "c" 9]
      = .ok (Arithmetic.new (some (punct "+" 7))
          (.ref (Arithmetic.new (some (punct "*" 3))
            (.ref (PrimaryExpression.newFactor (some (identifier "a" 1))))
            (.ref (PrimaryExpression.newFactor (some (identifier "b" 5))))))
          (.ref (PrimaryExpression.newFactor (some (identifier "c" 9)))), []) := by
  rfl

/-- C9: when the second of two binary operators binds tighter than the first,
the operand sequence `x op1 y op2 z` parses as
`Arithmetic(op1, x, Arithmetic(op2, y, z))`, both operands of each node present;
`a + b * c` is the instance of the witness. -/
theorem arithmetic_tighter_operator_nests_right
    (castExpression : Production) (threshold p1 p2 : Nat)
    (x y z : Expression) (tx ty tz : List Token) (op1 op2 : Token)
    (h1 : binaryPrecedence op1 = some p1) (h2 : binaryPrecedence op2 = some p2)
    (hlt : p1 < p2) (hthr : threshold ≤ p1)
    (hx : castExpression (tx ++ op1 :: (ty ++ op2 :: tz)) = .ok (x, op1 :: (ty ++ op2 :: tz)))
    (hy : castExpression (ty ++ op2 :: tz) = .ok (y, op2 :: tz))
    (hz : castExpression tz = .ok (z, [])) :
    arithmetic castExpression threshold (tx ++ op1 :: (ty ++ op2 :: tz))
      = .ok (Arithmetic.new (some op1) (.ref x)
          (.ref (Arithmetic.new (some op2) (.ref y) (.ref z))), []) ∧
    (Arithmetic.new (some op1) (.ref x)
      (.ref (Arithmetic.new (some op2) (.ref y) (.ref z)))).operandsPresent = true ∧
    (Arithmetic.new (some op2) (.ref y) (.ref z)).operandsPresent = true := by
  refine ⟨?_, rfl, rfl⟩
  obtain ⟨n, hn⟩ : ∃ n, (op1 :: (ty ++ op2 :: tz)).length = n + 2 := by
    refine ⟨ty.length + tz.length, ?_⟩
    simp only [List.length_cons, List.length_append]
    omega
  have hle : p1 + 1 ≤ p2 := hlt
  simp only [arithmetic, hx, bind, Except.bind, hn]
  simp only [climb, h1, hthr, if_true, hy, bind, Except.bind, h2, hle, hz, climb_nil]

theorem arithmetic_tighter_operator_nests_right_witness :
    arithmetic factorOnly 1
      [identifier "a" 1, punct "+" 3, identifier "b" 5, punct "*" 7, identifier "c" 9]
      = .ok (Arithmetic.new (some (punct "+" 3))
          (.ref (PrimaryExpression.newFactor (some (identifier "a" 1))))
          (.ref (Arithmetic.new (some (punct "*" 7))
            (.ref (PrimaryExpression.newFactor (some (identifier "b" 5))))
            (.ref (PrimaryExpression.newFactor (some (identifier "c" 9)))))), []) :=
  (arithmetic_tighter_operator_nests_right factorOnly 1 7 8
    (PrimaryExpression.newFactor (some (identifier "a" 1)))
    (PrimaryExpression.newFactor (some (identifier "b" 5)))
    (PrimaryExpression.newFactor (some (identifier "c" 9)))
    [identifier "a" 1] [identifier "b" 5] [identifier "c" 9] (punct "+" 3) (punct "*" 7)
    (by decide) (by decide) (by decide) (by decide) rfl rfl rfl).1

theorem argumentListLoop_count (assignmentExpression : Production) (fuel : Nat) :
    ∀ (list : Expression) (tokens : List Token) (result : Expression) (rest : List Token),
      getKind list = Kind.ArgumentExpressionList → 1 ≤ list.argumentCount →
      argumentListLoop assignmentExpression fuel list tokens = .ok (result, rest) →
      getKind result = Kind.ArgumentExpressionList ∧ 1 ≤ result.argumentCount := by
  induction fuel with
  | zero =>
    intro list tokens result rest hk hc h
    cases tokens with
    | nil =>
      simp only [argumentListLoop, Except.ok.injEq, Prod.mk.injEq] at h
      obtain ⟨rfl, -⟩ := h
      exact ⟨hk, hc⟩
    | cons t tokens =>
      simp only [argumentListLoop] at h
      split at h
      · cases h
      · simp only [Except.ok.injEq, Prod.mk.injEq] at h
        obtain ⟨rfl, -⟩ := h
        exact ⟨hk, hc⟩
  | succ fuel ih =>
    intro list tokens result rest hk hc h
    cases tokens with
    | nil =>
      simp only [argumentListLoop, Except.ok.injEq, Prod.mk.injEq] at h
      obtain ⟨rfl, -⟩ := h
      exact ⟨hk, hc⟩
    | cons t tokens =>
      simp only [argumentListLoop] at h
      split at h
      · cases hparse : assignmentExpression tokens with
        | error e =>
          rw [hparse] at h
          cases h
        | ok parsed =>
          obtain ⟨a, rest1⟩ := parsed
          rw [hparse] at h
          simp only [bind, Except.bind] at h
          refine ih (ArgumentExpressionList.new (.ref list) (.ref a)) rest1 result rest rfl ?_ h
          simp [ArgumentExpressionList.new, Expression.argumentCount, ExpressionPtr.isPresent]
      · simp only [Except.ok.injEq, Prod.mk.injEq] at h
        obtain ⟨rfl, -⟩ := h
        exact ⟨hk, hc⟩

/-- C8: the call `f()` parses as a `FunctionCall` whose argument list is null;
the call `f(x)` parses as a `FunctionCall` whose argument list is present, a
single `ArgumentExpressionList` node with no previous list and the one
assignment-expression; the two nodes differ; and every list the production
argument-expression-list builds holds at least one assignment-expression. -/
theorem call_argument_list_null_iff_no_arguments
    (expression assignmentExpression : Production)
    (inherited : Expression → Token → PostfixArgs)
    (f lp rp x0 : Token) (xs : List Token) (x : Expression)
    (hf : f.isFactor = true) (hlp : lp.isPunctuator "(" = true)
    (hrp : rp.isPunctuator ")" = true) (hx0 : x0.isPunctuator ")" = false)
    (hx : assignmentExpression (x0 :: (xs ++ [rp])) = .ok (x, [rp])) :
    postfixExpression expression assignmentExpression inherited [f, lp, rp]
      = .ok (FunctionCall.new (inherited (PrimaryExpression.newFactor (some f)) lp) .null, []) ∧
    postfixExpression expression assignmentExpression inherited (f :: lp :: x0 :: (xs ++ [rp]))
      = .ok (FunctionCall.new (inherited (PrimaryExpression.newFactor (some f)) lp)
          (.ref (ArgumentExpressionList.new .null (.ref x))), []) ∧
    (FunctionCall.new (inherited (PrimaryExpression.newFactor (some f)) lp) .null).argExprLst?
      = some .null ∧
    (FunctionCall.new (inherited (PrimaryExpression.newFactor (some f)) lp)
      (.ref (ArgumentExpressionList.new .null (.ref x)))).argExprLst?
      = some (.ref (.ArgumentExpressionList .null (.ref x))) ∧
    FunctionCall.new (inherited (PrimaryExpression.newFactor (some f)) lp) .null
      ≠ FunctionCall.new (inherited (PrimaryExpression.newFactor (some f)) lp)
          (.ref (ArgumentExpressionList.new .null (.ref x))) ∧
    (∀ (tokens : List Token) (list : Expression) (rest : List Token),
      argumentExpressionList assignmentExpression tokens = .ok (list, rest) →
      getKind list = Kind.ArgumentExpressionList ∧ 1 ≤ list.argumentCount) := by
  have hcomma : rp.isPunctuator "," = false := by
    simp only [Token.isPunctuator, Bool.and_eq_true, beq_iff_eq] at hrp
    simp [Token.isPunctuator, hrp.2]
  have hlb : lp.isPunctuator "[" = false := by
    simp only [Token.isPunctuator, Bool.and_eq_true, beq_iff_eq] at hlp
    simp [Token.isPunctuator, hlp.2]
  have hdot : lp.isPunctuator "." = false := by
    simp only [Token.isPunctuator, Bool.and_eq_true, beq_iff_eq] at hlp
    simp [Token.isPunctuator, hlp.2]
  have harrow : lp.isPunctuator "->" = false := by
    simp only [Token.isPunctuator, Bool.and_eq_true, beq_iff_eq] at hlp
    simp [Token.isPunctuator, hlp.2]
  refine ⟨?_, ?_, rfl, rfl, ?_, ?_⟩
  · simp [postfixExpression, primaryExpression, hf, bind, Except.bind, postfixLoop, hlp, hlb,
      hdot, harrow, hrp]
  · obtain ⟨n, hn⟩ : ∃ n, (lp :: x0 :: (xs ++ [rp])).length = n + 1 := ⟨_, rfl⟩
    simp only [postfixExpression, primaryExpression, hf, if_true, bind, Except.bind, hn]
    simp only [postfixLoop, hlb, hdot, harrow, hlp, hx0, Bool.or_self, Bool.false_eq_true,
      if_false, if_true, argumentExpressionList, hx, bind, Except.bind, List.length_singleton]
    cases n <;>
      simp [argumentListLoop, hcomma, expect, hrp, postfixLoop]
  · simp [FunctionCall.new]
  · intro tokens list rest h
    simp only [argumentExpressionList, bind, Except.bind] at h
    cases hparse : assignmentExpression tokens with
    | error e =>
      rw [hparse] at h
      cases h
    | ok parsed =>
      obtain ⟨a, rest1⟩ := parsed
      rw [hparse] at h
      simp only at h
      refine argumentListLoop_count assignmentExpression rest1.length
        (ArgumentExpressionList.new .null (.ref a)) rest1 list rest rfl ?_ h
      simp [ArgumentExpressionList.new, Expression.argumentCount, ExpressionPtr.argumentCount,
        ExpressionPtr.isPresent]

theorem call_argument_list_null_iff_no_arguments_witness :
    postfixExpression factorOnly factorOnly
        (fun base t => { op := none, expr := .ref base, op1 := some t, postfixExp := .null })
        [identifier "f" 1, punct "(" 2, punct ")" 3]
      = .ok (.FunctionCall none
          (.ref (.PrimaryExpression (some (identifier "f" 1)) .null))
          (some (punct "(" 2)) .null .null, []) ∧
    postfixExpression factorOnly factorOnly
        (fun base t => { op := none, expr := .ref base, op1 := some t, postfixExp := .null })
        [identifier "f" 1, punct "(" 2, identifier "x" 3, punct ")" 4]
      = .ok (.FunctionCall none
          (.ref (.PrimaryExpression (some (identifier "f" 1)) .null))
          (some (punct "(" 2)) .null
          (.ref (.ArgumentExpressionList .null
            (.ref (.PrimaryExpression (some (identifier "x" 3)) .null)))), []) :=
  ⟨(call_argument_list_null_iff_no_arguments factorOnly factorOnly
      (fun base t => { op := none, expr := .ref base, op1 := some t, postfixExp := .null })
      (identifier "f" 1) (punct "(" 2) (punct ")" 3) (identifier "x" 3) []
      (PrimaryExpression.newFactor (some (identifier "x" 3)))
      (by decide) (by decide) (by decide) (by decide) rfl).1,
   (call_argument_list_null_iff_no_arguments factorOnly factorOnly
      (fun base t => { op := none, expr := .ref base, op1 := some t, postfixExp := .null })
      (identifier "f" 1) (punct "(" 2) (punct ")" 4) (identifier "x" 3) []
      (PrimaryExpression.newFactor (some (identifier "x" 3)))
      (by decide) (by decide) (by decide) (by decide) rfl).2.1⟩

end Parse

end Miyuki
